import Mathlib

/-!
Verification development for the Audio-Visualizer repository.

The definitions below are a shallow embedding of the audio analysis /
beat detection / rendering pipeline:

* `detectBeat`, `runDetect` embed the `detectBeat` callback of
  `useAudioManager` (src/unnamed/part_000, lines 75-107): JS numbers are
  modelled as rationals (ℚ), `Date.now()` timestamps as integers (ℤ),
  and the `Uint8Array` frequency buffer as a `List ℕ` of byte values.
  `Math.floor(frequencyData.length * 0.1)` equals natural division by 10
  for all buffer lengths of interest, so the bass range is `len / 10`.
* `modeChange`, `renderTick` embed the transition state machine of
  `VisualizerCanvas` (VisualizerCanvas.tsx): the React states
  `previousMode`, `isTransitioning`, `transitionProgress` together with
  the mode prop form `CanvasState`; the mode-change `useEffect`
  (lines 334-340) is `modeChange`, and one pass of the `render`
  callback (lines 290-331) is `renderTick`, returning the list of
  (mode, opacity) draw requests issued that tick.  The JS constant
  `0.05` is the rational 1/20.
* `drawSpectrogram` embeds the spectrogram accumulator
  (VisualizerCanvas.tsx lines 197-253), with `ImageData` as an explicit
  width/height/byte-list record.  An out-of-range read of a JS typed
  array yields `undefined`, which stores as 0 into a `Uint8ClampedArray`;
  this is modelled by `List.getD _ _ 0`.
* `barLoopAlphas`, `renderModeBars` embed the `globalAlpha` side effects
  of `drawBarSpectrum` (lines 29-76) and `renderMode` (lines 256-287):
  the value of `ctx.globalAlpha` at each `fillRect` call is recorded in
  order, together with the final `globalAlpha` value.
-/

/-! ## Beat detector (useAudioManager, src/unnamed/part_000) -/

/-- State held by the two refs of useAudioManager that the beat detector
mutates: beatHistoryRef (line 39) and lastBeatTimeRef (line 40). -/
structure BeatDetectorState where
  history : List ℚ
  lastBeatTime : ℤ
deriving DecidableEq, Repr

/-- Initial ref values: empty history, last beat time 0. -/
def initState : BeatDetectorState := ⟨[], 0⟩

/-- Number of bass bins: Math.floor(frequencyData.length * 0.1), line 77.
For the buffer lengths that occur this equals natural division by 10. -/
def bassRange (len : ℕ) : ℕ := len / 10

/-- Raw bass energy: mean of the first bassRange entries (lines 78-82).
When bassRange is 0 the JS code divides 0 by 0 (NaN); in ℚ the value is 0.
The division-by-zero condition itself is bassRange = 0. -/
def bassEnergyRaw (freq : List ℕ) : ℚ :=
  (((freq.take (bassRange freq.length)).sum : ℕ) : ℚ) / (bassRange freq.length : ℚ)

/-- History update of lines 85-88: push, then shift (drop the oldest)
when the length exceeds 20. -/
def pushHistory (h : List ℚ) (e : ℚ) : List ℚ :=
  if 20 < (h ++ [e]).length then (h ++ [e]).tail else h ++ [e]

/-- One call of detectBeat (lines 75-107).  Returns the updated ref
state, the beatDetected flag, and the normalized bassEnergy output. -/
def detectBeat (st : BeatDetectorState) (now : ℤ) (freq : List ℕ) :
    BeatDetectorState × Bool × ℚ :=
  let bassEnergy := bassEnergyRaw freq
  let h1 := st.history ++ [bassEnergy]
  let h := if 20 < h1.length then h1.tail else h1
  let avgBassEnergy := h.sum / (h.length : ℚ)
  let beatThreshold := avgBassEnergy * (3 / 2)
  let timeSinceLastBeat := now - st.lastBeatTime
  let beatDetected :=
    decide (beatThreshold < bassEnergy) && decide ((200 : ℤ) < timeSinceLastBeat)
      && decide (10 ≤ h.length)
  let last := if beatDetected then now else st.lastBeatTime
  (⟨h, last⟩, beatDetected, bassEnergy / 255)

/-- A strictly sequential run of detectBeat calls (one per tick), each
call given its Date.now() timestamp and frequency buffer; returns the
final ref state and the list of beatDetected outputs in call order. -/
def runDetect : BeatDetectorState → List (ℤ × List ℕ) → BeatDetectorState × List Bool
  | st, [] => (st, [])
  | st, c :: rest =>
    let r := detectBeat st c.1 c.2
    let rr := runDetect r.1 rest
    (rr.1, r.2.1 :: rr.2)

/-! ## VisualizerCanvas: transition state machine -/

/-- The five draw modes (VisualizerCanvas.tsx line 4). -/
inductive VisualizerMode
  | bars | waveform | circular | particles | spectrogram
deriving DecidableEq, Repr

/-- The React state of VisualizerCanvas relevant to transitions: the
externally supplied mode prop together with the previousMode,
isTransitioning and transitionProgress states (lines 23-25). -/
structure CanvasState where
  mode : VisualizerMode
  previousMode : VisualizerMode
  isTransitioning : Bool
  transitionProgress : ℚ
deriving DecidableEq, Repr

/-- Mount-time state: previousMode is initialized to the mode prop,
no transition in flight. -/
def initialCanvasState (m : VisualizerMode) : CanvasState := ⟨m, m, false, 0⟩

/-- Setting the mode prop to m, followed by the mode-change useEffect
(lines 334-340): when m differs from previousMode the effect sets
isTransitioning to true, transitionProgress to 0 and previousMode to the
new mode prop (all three updates land in the same React batch, before
any render tick can observe an intermediate state). -/
def modeChange (s : CanvasState) (m : VisualizerMode) : CanvasState :=
  if m ≠ s.previousMode then
    { mode := m, previousMode := m, isTransitioning := true, transitionProgress := 0 }
  else
    { s with mode := m }

/-- One pass of the render callback (lines 290-331), restricted to its
state updates and the (mode, opacity) draw requests it issues via
renderMode.  During a transition it draws previousMode at opacity
1 - progress (when positive) then mode at opacity progress (when
positive), and advances progress by 0.05 = 1/20, clamping to exactly 1
and clearing isTransitioning when the incremented value reaches 1;
otherwise it draws the current mode at full opacity. -/
def renderTick (s : CanvasState) : CanvasState × List (VisualizerMode × ℚ) :=
  if s.isTransitioning ∧ s.transitionProgress < 1 then
    let fadeOutOpacity := 1 - s.transitionProgress
    let fadeInOpacity := s.transitionProgress
    let draws :=
      (if 0 < fadeOutOpacity then [(s.previousMode, fadeOutOpacity)] else [])
        ++ (if 0 < fadeInOpacity then [(s.mode, fadeInOpacity)] else [])
    let newProgress := s.transitionProgress + 1 / 20
    let s' :=
      if 1 ≤ newProgress then
        { s with isTransitioning := false, transitionProgress := 1 }
      else
        { s with transitionProgress := newProgress }
    (s', draws)
  else
    (s, [(s.mode, 1)])

/-! ## VisualizerCanvas: globalAlpha trace of the bars mode -/

/-- Number of iterations of the bar loop (line 37): the JS value
barCount = Math.min(frequencyData.length / 4, 128) is a float and the
loop for (i = 0; i < barCount; i++) runs ceil(len/4) times when
len/4 < 128, i.e. min(ceil(len/4), 128) times. -/
def barCountOf (len : ℕ) : ℕ := min ((len + 3) / 4) 128

/-- The globalAlpha values in effect at the successive fillRect calls of
the bar loop (lines 57-75), paired with the final globalAlpha value:
each iteration fills the bar at the current alpha, fills the reflection
at alpha 0.2 = 1/5 (line 72), then resets alpha to 1 (line 74). -/
def barLoopAlphas : ℕ → ℚ → List ℚ × ℚ
  | 0, a => ([], a)
  | n + 1, a =>
    let rest := barLoopAlphas n 1
    (a :: (1 / 5 : ℚ) :: rest.1, rest.2)

/-- globalAlpha trace of one drawBarSpectrum call (lines 29-76), given
the alpha in effect on entry and the frequency buffer length. -/
def drawBarSpectrum (startAlpha : ℚ) (freqLen : ℕ) : List ℚ × ℚ :=
  barLoopAlphas (barCountOf freqLen) startAlpha

/-- globalAlpha trace of renderMode dispatching to bars (lines 256-287):
the context alpha is 1 on entry; when opacity < 1 renderMode sets
globalAlpha to opacity before dispatching and back to 1 afterwards. -/
def renderModeBars (opacity : ℚ) (freqLen : ℕ) : List ℚ × ℚ :=
  let a0 : ℚ := if opacity < 1 then opacity else 1
  let r := drawBarSpectrum a0 freqLen
  (r.1, if opacity < 1 then 1 else r.2)

/-! ## Spectrogram accumulator (drawSpectrogram, lines 197-253) -/

/-- Model of an ImageData object: dimensions plus the RGBA byte buffer
in row-major order, pixel (x, y) channel c at index ((y*w)+x)*4+c. -/
structure ImgData where
  width : ℕ
  height : ℕ
  data : List ℕ
deriving DecidableEq, Repr

/-- The buffer produced by the initialization branch (lines 242-252):
ctx.createImageData yields all-zero bytes and the loop sets every
fourth byte (the alpha channel) to 255, i.e. opaque black. -/
def initBlack (w h : ℕ) : List ℕ :=
  (List.range (w * h * 4)).map (fun i => if i % 4 = 3 then 255 else 0)

/-- Number of iterations of the new-column loop (lines 203, 224): the JS
value frequencyBins = Math.min(len / 2, height) is a float, so the loop
y < frequencyBins runs min(ceil(len/2), height) times. -/
def frequencyBinsCount (len h : ℕ) : ℕ := min ((len + 1) / 2) h

/-- frequencyIndex = Math.floor((y / frequencyBins) * len) (line 225),
with frequencyBins the (possibly fractional) value min(len/2, h). -/
def specFreqIndex (len h y : ℕ) : ℕ :=
  (⌊(y : ℚ) / min ((len : ℚ) / 2) (h : ℚ) * (len : ℚ)⌋).toNat

/-- intensity = frequencyData[frequencyIndex] / 255 (line 226). -/
def specIntensity (freq : List ℕ) (h y : ℕ) : ℚ :=
  (freq.getD (specFreqIndex freq.length h y) 0 : ℚ) / 255

/-- Channel c of the new rightmost-column pixel at row y
(lines 228-237): blue-to-red gradient, opaque alpha. -/
def specColumnByte (freq : List ℕ) (h y c : ℕ) : ℕ :=
  let intensity := specIntensity freq h y
  if c = 0 then (⌊intensity * 255⌋).toNat
  else if c = 1 then (⌊intensity * 128⌋).toNat
  else if c = 2 then (⌊(1 - intensity) * 255⌋).toNat
  else 255

/-- Byte i of the buffer built by the shift branch (lines 206-241),
written pointwise: the copy loop (lines 211-221) sets pixel (x, y) with
x < w-1 from the old buffer at (x+1, y); the column loop (lines 224-238)
sets pixel (w-1, y) for y below frequencyBinsCount; all remaining bytes
keep the zero fill of createImageData.  The loops write disjoint
locations, so this pointwise form is exactly the loop result.  An
out-of-range read of the old buffer (possible only if its length is not
w*h*4) yields undefined in JS, which stores as 0, hence getD with
default 0. -/
def shiftedByte (old : List ℕ) (w h : ℕ) (freq : List ℕ) (i : ℕ) : ℕ :=
  if i / 4 % w + 1 < w then
    old.getD ((i / 4 / w * w + (i / 4 % w + 1)) * 4 + i % 4) 0
  else if i / 4 / w < frequencyBinsCount freq.length h then
    specColumnByte freq h (i / 4 / w) (i % 4)
  else 0

/-- One call of drawSpectrogram (lines 197-253) acting on
spectrogramDataRef: when the ref holds a buffer it is replaced by the
shifted-and-appended buffer built with the current canvas dimensions;
when the ref is empty a fresh opaque-black w x h buffer is stored and
no column is appended. -/
def drawSpectrogram (cur : Option ImgData) (freq : List ℕ) (w h : ℕ) : Option ImgData :=
  match cur with
  | some img => some ⟨w, h, (List.range (w * h * 4)).map (shiftedByte img.data w h freq)⟩
  | none => some ⟨w, h, initBlack w h⟩

/-- Effect of the resize useEffect (lines 360-373) on spectrogramDataRef:
the effect resizes and repaints the canvas element but never touches
spectrogramDataRef, so the ref keeps its old buffer unchanged. -/
def resizeEffect (cur : Option ImgData) : Option ImgData := cur

/-- The 4h bytes of pixel column x of an image, top to bottom. -/
def columnOf (img : ImgData) (x : ℕ) : List ℕ :=
  (List.range (img.height * 4)).map
    (fun k => img.data.getD ((k / 4 * img.width + x) * 4 + k % 4) 0)

/-- Column extraction through the optional ref. -/
def columnOfOpt (s : Option ImgData) (x : ℕ) : List ℕ :=
  match s with
  | some img => columnOf img x
  | none => []

/-! ## Helper lemmas: beat detector -/

lemma detectBeat_history (st : BeatDetectorState) (now : ℤ) (freq : List ℕ) :
    (detectBeat st now freq).1.history = pushHistory st.history (bassEnergyRaw freq) := rfl

lemma detectBeat_bassEnergy (st : BeatDetectorState) (now : ℤ) (freq : List ℕ) :
    (detectBeat st now freq).2.2 = bassEnergyRaw freq / 255 := rfl

lemma pushHistory_length (h : List ℚ) (e : ℚ) :
    (pushHistory h e).length = if 20 ≤ h.length then h.length else h.length + 1 := by
  by_cases hl : 20 ≤ h.length
  · rw [pushHistory, if_pos (by simp; omega), if_pos hl]
    simp
  · rw [pushHistory, if_neg (by simp; omega), if_neg hl]
    simp

lemma pushHistory_length_le (h : List ℚ) (e : ℚ) (hle : h.length ≤ 20) :
    (pushHistory h e).length ≤ 20 := by
  rw [pushHistory_length]
  split <;> omega

lemma pushHistory_no_evict (h : List ℚ) (e : ℚ) (hle : h.length ≤ 19) :
    pushHistory h e = h ++ [e] := by
  rw [pushHistory, if_neg (by simp; omega)]

lemma runDetect_nil (st : BeatDetectorState) : runDetect st [] = (st, []) := rfl

lemma runDetect_cons (st : BeatDetectorState) (c : ℤ × List ℕ) (rest : List (ℤ × List ℕ)) :
    runDetect st (c :: rest)
      = ((runDetect (detectBeat st c.1 c.2).1 rest).1,
          (detectBeat st c.1 c.2).2.1 :: (runDetect (detectBeat st c.1 c.2).1 rest).2) := rfl

lemma runDetect_history (st : BeatDetectorState) (calls : List (ℤ × List ℕ)) :
    (runDetect st calls).1.history
      = List.foldl pushHistory st.history (calls.map (fun c => bassEnergyRaw c.2)) := by
  induction calls generalizing st with
  | nil => rfl
  | cons c rest ih =>
      rw [runDetect_cons]
      simp only [List.map_cons, List.foldl_cons]
      rw [ih, detectBeat_history]

lemma foldl_pushHistory_length_le (s : List ℚ) (h : List ℚ) (hle : h.length ≤ 20) :
    (List.foldl pushHistory h s).length ≤ 20 := by
  induction s generalizing h with
  | nil => simpa using hle
  | cons e s ih => exact ih _ (pushHistory_length_le h e hle)

lemma foldl_pushHistory_no_evict (s : List ℚ) (h : List ℚ)
    (hle : h.length + s.length ≤ 20) : List.foldl pushHistory h s = h ++ s := by
  induction s generalizing h with
  | nil => simp
  | cons e s ih =>
      simp only [List.foldl_cons]
      rw [pushHistory_no_evict h e (by simp at hle; omega)]
      rw [ih (h ++ [e]) (by simp at hle ⊢; omega)]
      simp

lemma foldl_pushHistory_21 (s : List ℚ) (hlen : s.length = 21) :
    List.foldl pushHistory [] s = s.drop 1 := by
  have hne : s ≠ [] := by intro h; rw [h] at hlen; simp at hlen
  have hdec := List.dropLast_append_getLast hne
  set t := s.dropLast with ht
  set e := s.getLast hne with he
  have htl : t.length = 20 := by
    rw [ht, List.length_dropLast, hlen]
  calc List.foldl pushHistory [] s
      = List.foldl pushHistory [] (t ++ [e]) := by rw [hdec]
    _ = pushHistory (List.foldl pushHistory [] t) e := by
        rw [List.foldl_append]; rfl
    _ = pushHistory t e := by
        rw [foldl_pushHistory_no_evict t [] (by simp [htl])]
        simp
    _ = (t ++ [e]).tail := by
        have h20 : 20 < (t ++ [e]).length := by simp [htl]
        rw [pushHistory, if_pos h20]
    _ = s.drop 1 := by
        rw [hdec]
        rcases s with _ | ⟨a, s⟩
        · simp at hlen
        · simp

lemma detectBeat_beat_iff (st : BeatDetectorState) (now : ℤ) (freq : List ℕ) :
    (detectBeat st now freq).2.1 = true ↔
      (pushHistory st.history (bassEnergyRaw freq)).sum
          / ((pushHistory st.history (bassEnergyRaw freq)).length : ℚ) * (3 / 2)
          < bassEnergyRaw freq
        ∧ 200 < now - st.lastBeatTime
        ∧ 10 ≤ (pushHistory st.history (bassEnergyRaw freq)).length := by
  rw [show (detectBeat st now freq).2.1
      = (decide ((pushHistory st.history (bassEnergyRaw freq)).sum
            / ((pushHistory st.history (bassEnergyRaw freq)).length : ℚ) * (3 / 2)
            < bassEnergyRaw freq)
          && decide ((200 : ℤ) < now - st.lastBeatTime)
          && decide (10 ≤ (pushHistory st.history (bassEnergyRaw freq)).length)) from rfl]
  simp [Bool.and_eq_true, decide_eq_true_eq, and_assoc]

lemma detectBeat_history_length (st : BeatDetectorState) (now : ℤ) (freq : List ℕ) :
    (detectBeat st now freq).1.history.length
      = if 20 ≤ st.history.length then st.history.length else st.history.length + 1 := by
  rw [detectBeat_history, pushHistory_length]

lemma detectBeat_false_of_short (st : BeatDetectorState) (now : ℤ) (freq : List ℕ)
    (h : st.history.length ≤ 8) : (detectBeat st now freq).2.1 = false := by
  cases hb : (detectBeat st now freq).2.1 with
  | false => rfl
  | true =>
      exfalso
      have hlen := ((detectBeat_beat_iff st now freq).mp hb).2.2
      rw [pushHistory_length] at hlen
      split at hlen <;> omega

lemma runDetect_all_false_of_short (calls : List (ℤ × List ℕ)) (st : BeatDetectorState)
    (h : st.history.length + calls.length ≤ 9) :
    (runDetect st calls).2.all (fun b => !b) = true := by
  induction calls generalizing st with
  | nil => rfl
  | cons c rest ih =>
      simp only [List.length_cons] at h
      rw [runDetect_cons]
      simp only [List.all_cons]
      have hf : (detectBeat st c.1 c.2).2.1 = false :=
        detectBeat_false_of_short _ _ _ (by omega)
      rw [hf]
      simp only [Bool.not_false, Bool.true_and]
      apply ih
      rw [detectBeat_history_length, if_neg (by omega)]
      omega

lemma detectBeat_lastBeat (st : BeatDetectorState) (now : ℤ) (freq : List ℕ) :
    (detectBeat st now freq).1.lastBeatTime
      = if (detectBeat st now freq).2.1 then now else st.lastBeatTime := rfl

lemma detectBeat_false_of_recent (st : BeatDetectorState) (now : ℤ) (freq : List ℕ)
    (h : now - st.lastBeatTime ≤ 200) : (detectBeat st now freq).2.1 = false := by
  cases hb : (detectBeat st now freq).2.1 with
  | false => rfl
  | true =>
      exfalso
      have hgap := ((detectBeat_beat_iff st now freq).mp hb).2.1
      omega

lemma runDetect_all_false_of_recent (rest : List (ℤ × List ℕ)) (st : BeatDetectorState)
    (h : ∀ c ∈ rest, c.1 - st.lastBeatTime ≤ 200) :
    (runDetect st rest).2.all (fun b => !b) = true ∧
    (runDetect st rest).1.lastBeatTime = st.lastBeatTime := by
  induction rest generalizing st with
  | nil => exact ⟨rfl, rfl⟩
  | cons c rest ih =>
      have hc : c.1 - st.lastBeatTime ≤ 200 := h c (by simp)
      have hf : (detectBeat st c.1 c.2).2.1 = false :=
        detectBeat_false_of_recent _ _ _ hc
      have hlast : (detectBeat st c.1 c.2).1.lastBeatTime = st.lastBeatTime := by
        rw [detectBeat_lastBeat, hf]
        rfl
      obtain ⟨ha, hl⟩ := ih (detectBeat st c.1 c.2).1
        (by intro d hd; rw [hlast]; exact h d (by simp [hd]))
      rw [runDetect_cons]
      constructor
      · simp only [List.all_cons, hf, Bool.not_false, Bool.true_and]
        exact ha
      · rw [hl, hlast]

/-- C4: for every sequence of detect calls the EnergyHistory length (a
natural number, hence at least 0) never exceeds 20, and after exactly 21
calls from the initial state the history holds exactly the 21 pushed
bass-energy samples minus the evicted oldest one, in oldest-first
order. -/
theorem C4_energy_history_bounded :
    (∀ calls : List (ℤ × List ℕ), (runDetect initState calls).1.history.length ≤ 20) ∧
    (∀ calls : List (ℤ × List ℕ), calls.length = 21 →
      (runDetect initState calls).1.history
        = (calls.map (fun c => bassEnergyRaw c.2)).drop 1) := by
  constructor
  · intro calls
    rw [runDetect_history]
    exact foldl_pushHistory_length_le _ _ (by simp [initState])
  · intro calls hlen
    rw [runDetect_history]
    show List.foldl pushHistory [] _ = _
    rw [foldl_pushHistory_21 _ (by simp [hlen])]

/-- Witness for C4: a concrete run of 21 detect calls. -/
theorem C4_energy_history_bounded_witness :
    (runDetect initState ((List.range 21).map (fun k => ((0 : ℤ), [k])))).1.history
      = ((((List.range 21).map (fun k => ((0 : ℤ), [k]))).map
          (fun c => bassEnergyRaw c.2)).drop 1) :=
  C4_energy_history_bounded.2 _ (by simp)

/-- C5: detectBeat returns true exactly when the raw bass energy exceeds
1.5 times the mean of the history after appending the new sample, more
than 200ms have elapsed since the last beat, and the (post-append)
history holds at least 10 samples; with prior history of ten samples of
value 10 and a tick whose bass mean is 16 it fires (gap satisfied),
with 14 it does not; and a run of at most 9 calls from the initial
state never fires. -/
theorem C5_detect_beat_condition :
    (∀ (st : BeatDetectorState) (now : ℤ) (freq : List ℕ),
      (detectBeat st now freq).2.1 = true ↔
        (pushHistory st.history (bassEnergyRaw freq)).sum
            / ((pushHistory st.history (bassEnergyRaw freq)).length : ℚ) * (3 / 2)
            < bassEnergyRaw freq
          ∧ 200 < now - st.lastBeatTime
          ∧ 10 ≤ (pushHistory st.history (bassEnergyRaw freq)).length) ∧
    (detectBeat ⟨List.replicate 10 (10 : ℚ), 0⟩ 1000 (16 :: List.replicate 9 0)).2.1
        = true ∧
    (detectBeat ⟨List.replicate 10 (10 : ℚ), 0⟩ 1000 (14 :: List.replicate 9 0)).2.1
        = false ∧
    (∀ calls : List (ℤ × List ℕ),
      (runDetect initState (calls.take 9)).2.all (fun b => !b) = true) := by
  refine ⟨detectBeat_beat_iff, ?_, ?_, ?_⟩
  · norm_num [detectBeat, bassEnergyRaw, bassRange, List.sum_replicate]
  · norm_num [detectBeat, bassEnergyRaw, bassRange, List.sum_replicate]
  · intro calls
    apply runDetect_all_false_of_short
    simp only [initState, List.length_nil, List.length_take, Nat.zero_add]
    omega

/-- C6: the last-beat timestamp changes exactly on ticks where a beat
fires (to that tick's time), and after a fired beat at time t every
detect call issued strictly less than 200ms later reports no beat, so
two spikes under 200ms apart yield at most one beatDetected = true. -/
theorem C6_last_beat_gap :
    (∀ (st : BeatDetectorState) (now : ℤ) (freq : List ℕ),
      ((detectBeat st now freq).2.1 = true →
          (detectBeat st now freq).1.lastBeatTime = now) ∧
      ((detectBeat st now freq).2.1 = false →
          (detectBeat st now freq).1.lastBeatTime = st.lastBeatTime)) ∧
    (∀ (st : BeatDetectorState) (t : ℤ) (freq : List ℕ) (rest : List (ℤ × List ℕ)),
      (detectBeat st t freq).2.1 = true →
      (∀ c ∈ rest, c.1 - t < 200) →
      (runDetect (detectBeat st t freq).1 rest).2.all (fun b => !b) = true) := by
  constructor
  · intro st now freq
    constructor <;> intro hb <;> rw [detectBeat_lastBeat, hb] <;> rfl
  · intro st t freq rest hfire hwin
    have hlast : (detectBeat st t freq).1.lastBeatTime = t := by
      rw [detectBeat_lastBeat, hfire]
      rfl
    refine (runDetect_all_false_of_recent rest _ ?_).1
    intro c hc
    rw [hlast]
    exact le_of_lt (hwin c hc)

/-- Witness for C6: with nine history samples of value 10 and last beat
at time 0, a bass mean of 16 at t=1000 fires a beat, and a second spike
of bass mean 30 at t=1100 (100ms later, within the 200ms window) is
suppressed. -/
theorem C6_last_beat_gap_witness :
    (detectBeat ⟨List.replicate 9 (10 : ℚ), 0⟩ 1000 (16 :: List.replicate 9 0)).2.1
        = true ∧
    (runDetect (detectBeat ⟨List.replicate 9 (10 : ℚ), 0⟩ 1000
        (16 :: List.replicate 9 0)).1
        [(1100, 30 :: List.replicate 9 0)]).2.all (fun b => !b) = true := by
  have hfire : (detectBeat ⟨List.replicate 9 (10 : ℚ), 0⟩ 1000
      (16 :: List.replicate 9 0)).2.1 = true := by
    norm_num [detectBeat, bassEnergyRaw, bassRange, List.sum_replicate]
  exact ⟨hfire, C6_last_beat_gap.2 _ 1000 _ _ hfire (by norm_num)⟩

/-- C3 counterexample: the session buffer length is 1024 (fftSize 2048,
so frequencyBinCount = 1024); feeding detectBeat a malformed buffer of
length 30 does not skip the tick's update — the EnergyHistory changes,
refuting the claim that it is left unchanged. -/
theorem C3_counterexample :
    (List.replicate 30 (3 : ℕ)).length ≠ 1024 ∧
    (detectBeat initState 1000 (List.replicate 30 3)).1.history ≠ initState.history := by
  constructor
  · simp
  · rw [detectBeat_history]
    simp [initState, pushHistory]

/-- C3 amended: the code performs no input validation, so for every
buffer of unexpected length the tick's analysis proceeds exactly as
usual — the computed bass energy is appended to the EnergyHistory
(with FIFO eviction) and a fresh BeatState is produced; the computation
is total, so the render loop keeps running, but the previous state is
not retained. -/
theorem C3_no_skip (st : BeatDetectorState) (now : ℤ) (freq : List ℕ)
    (hlen : freq.length ≠ 1024) :
    (detectBeat st now freq).1.history = pushHistory st.history (bassEnergyRaw freq) ∧
    (detectBeat st now freq).2.2 = bassEnergyRaw freq / 255 :=
  ⟨rfl, rfl⟩

/-- Witness for C3: the malformed length-30 buffer. -/
theorem C3_no_skip_witness :
    (List.replicate 30 (3 : ℕ)).length ≠ 1024 ∧
    ((detectBeat initState 1000 (List.replicate 30 3)).1.history
        = pushHistory initState.history (bassEnergyRaw (List.replicate 30 3)) ∧
      (detectBeat initState 1000 (List.replicate 30 3)).2.2
        = bassEnergyRaw (List.replicate 30 3) / 255) :=
  ⟨by simp, C3_no_skip initState 1000 (List.replicate 30 3) (by simp)⟩

/-- C9 counterexample: the non-empty byte buffer with the single entry 5
has bassRange = floor(1 * 0.1) = 0, so the mean on line 82 divides by
zero (0/0, NaN in JS; the ℚ model returns 0), refuting the claim that a
division by zero cannot occur for any non-empty buffer. -/
theorem C9_counterexample :
    ([5] : List ℕ) ≠ [] ∧ (∀ v ∈ ([5] : List ℕ), v ≤ 255) ∧
    ((bassRange ([5] : List ℕ).length : ℚ)) = 0 ∧
    bassEnergyRaw [5]
      = ((([5] : List ℕ).take (bassRange ([5] : List ℕ).length)).sum : ℚ) / 0 := by
  refine ⟨by simp, by simp, by norm_num [bassRange], ?_⟩
  norm_num [bassEnergyRaw, bassRange]

/-- C9 amended: for every frequency buffer of at least 10 bytes (each at
most 255) the bass range is nonzero — no division by zero — and the
normalized bassEnergy returned by detectBeat lies in [0, 1]. -/
theorem C9_bass_energy_in_range (st : BeatDetectorState) (now : ℤ) (freq : List ℕ)
    (h10 : 10 ≤ freq.length) (hb : ∀ v ∈ freq, v ≤ 255) :
    bassRange freq.length ≠ 0 ∧
    0 ≤ (detectBeat st now freq).2.2 ∧ (detectBeat st now freq).2.2 ≤ 1 := by
  have hr : 1 ≤ bassRange freq.length := by
    unfold bassRange
    omega
  have hrq : (0 : ℚ) < (bassRange freq.length : ℚ) := by
    exact_mod_cast Nat.lt_of_lt_of_le Nat.zero_lt_one hr
  refine ⟨by omega, ?_, ?_⟩
  · rw [detectBeat_bassEnergy]
    apply div_nonneg _ (by norm_num)
    unfold bassEnergyRaw
    positivity
  · rw [detectBeat_bassEnergy, div_le_one (by norm_num)]
    unfold bassEnergyRaw
    rw [div_le_iff₀ hrq]
    have hrlen : (freq.take (bassRange freq.length)).length = bassRange freq.length := by
      rw [List.length_take]
      unfold bassRange at *
      omega
    have hsum : (freq.take (bassRange freq.length)).sum ≤ bassRange freq.length * 255 := by
      have hle := List.sum_le_card_nsmul (freq.take (bassRange freq.length)) 255
        (fun x hx => hb x (List.mem_of_mem_take hx))
      rw [hrlen, smul_eq_mul] at hle
      exact hle
    calc ((freq.take (bassRange freq.length)).sum : ℚ)
        ≤ ((bassRange freq.length * 255 : ℕ) : ℚ) := by exact_mod_cast hsum
      _ = 255 * (bassRange freq.length : ℚ) := by push_cast; ring

/-- Witness for C9: a well-formed buffer of ten bytes of value 7. -/
theorem C9_bass_energy_in_range_witness :
    bassRange (List.replicate 10 (7 : ℕ)).length ≠ 0 ∧
    0 ≤ (detectBeat initState 0 (List.replicate 10 7)).2.2 ∧
    (detectBeat initState 0 (List.replicate 10 7)).2.2 ≤ 1 :=
  C9_bass_energy_in_range initState 0 (List.replicate 10 7) (by simp)
    (by intro v hv; rw [List.eq_of_mem_replicate hv]; omega)

/-! ## Transition claims -/

/-- C7: transitionProgress never decreases across render ticks; while a
transition is in flight it advances by exactly 0.05 = 1/20 per tick,
clamping at exactly 1; the tick whose increment reaches 1 clears
isTransitioning and sets progress to exactly 1; progress stays bounded
by 1; and once isTransitioning is false every tick leaves the state
unchanged and draws only the current (target) mode at full opacity. -/
theorem C7_transition_progress :
    (∀ s : CanvasState, s.transitionProgress ≤ (renderTick s).1.transitionProgress) ∧
    (∀ s : CanvasState, s.isTransitioning = true → s.transitionProgress < 1 →
      (renderTick s).1.transitionProgress
        = if 1 ≤ s.transitionProgress + 1 / 20 then 1
          else s.transitionProgress + 1 / 20) ∧
    (∀ s : CanvasState, s.isTransitioning = true → s.transitionProgress < 1 →
      1 ≤ s.transitionProgress + 1 / 20 →
      (renderTick s).1.isTransitioning = false ∧
        (renderTick s).1.transitionProgress = 1) ∧
    (∀ s : CanvasState, s.transitionProgress ≤ 1 →
      (renderTick s).1.transitionProgress ≤ 1) ∧
    (∀ s : CanvasState, s.isTransitioning = false →
      renderTick s = (s, [(s.mode, 1)])) := by
  refine ⟨?_, ?_, ?_, ?_, ?_⟩
  · intro s
    simp only [renderTick]
    by_cases h1 : (s.isTransitioning : Prop) ∧ s.transitionProgress < 1
    · rw [if_pos h1]
      dsimp only
      split_ifs with h2
      · exact le_of_lt h1.2
      · show s.transitionProgress ≤ s.transitionProgress + 1 / 20
        linarith
    · rw [if_neg h1]
  · intro s htr hp
    simp only [renderTick]
    rw [if_pos (And.intro htr hp)]
    dsimp only
    split_ifs with hge <;> rfl
  · intro s htr hp hge
    simp only [renderTick]
    rw [if_pos (And.intro htr hp)]
    dsimp only
    rw [if_pos hge]
    exact ⟨rfl, rfl⟩
  · intro s hp
    simp only [renderTick]
    by_cases h1 : (s.isTransitioning : Prop) ∧ s.transitionProgress < 1
    · rw [if_pos h1]
      dsimp only
      split_ifs with h2
      · exact le_refl _
      · show s.transitionProgress + 1 / 20 ≤ 1
        linarith [not_le.mp h2]
    · rw [if_neg h1]
      exact hp
  · intro s htr
    simp only [renderTick]
    rw [if_neg (by rw [htr]; simp)]

/-- Witness for C7: a transition tick at progress 19/20 completes the
blend, clamping at exactly 1 and clearing the active flag. -/
theorem C7_transition_progress_witness :
    (renderTick ⟨VisualizerMode.waveform, VisualizerMode.waveform, true,
        19 / 20⟩).1.isTransitioning = false ∧
    (renderTick ⟨VisualizerMode.waveform, VisualizerMode.waveform, true,
        19 / 20⟩).1.transitionProgress = 1 :=
  C7_transition_progress.2.2.1 _ rfl (by norm_num) (by norm_num)

/-- C1 as the code behaves: the mode-change effect overwrites
previousMode with the new mode before any blend tick runs, so a switch
from bars to waveform leaves previousMode = waveform (not bars), the
first transition tick draws only (waveform, 1), and the second draws
waveform twice — the outgoing bars mode is never drawn. -/
theorem C1_transition_records_new_mode :
    (modeChange (initialCanvasState VisualizerMode.bars)
        VisualizerMode.waveform).previousMode = VisualizerMode.waveform ∧
    (modeChange (initialCanvasState VisualizerMode.bars)
        VisualizerMode.waveform).previousMode ≠ VisualizerMode.bars ∧
    (renderTick (modeChange (initialCanvasState VisualizerMode.bars)
        VisualizerMode.waveform)).2 = [(VisualizerMode.waveform, 1)] ∧
    (renderTick ((renderTick (modeChange (initialCanvasState VisualizerMode.bars)
        VisualizerMode.waveform)).1)).2
      = [(VisualizerMode.waveform, 19 / 20), (VisualizerMode.waveform, 1 / 20)] := by
  have hmc : modeChange (initialCanvasState VisualizerMode.bars) VisualizerMode.waveform
      = ⟨VisualizerMode.waveform, VisualizerMode.waveform, true, 0⟩ := by
    unfold modeChange initialCanvasState
    rw [if_pos (by simp)]
  rw [hmc]
  have ht1 : renderTick ⟨VisualizerMode.waveform, VisualizerMode.waveform, true, 0⟩
      = (⟨VisualizerMode.waveform, VisualizerMode.waveform, true, 1 / 20⟩,
          [(VisualizerMode.waveform, 1)]) := by
    unfold renderTick
    rw [if_pos ⟨rfl, by norm_num⟩]
    dsimp only
    rw [if_neg (by norm_num), if_pos (by norm_num), if_neg (by norm_num)]
    norm_num
  have ht2 : renderTick ⟨VisualizerMode.waveform, VisualizerMode.waveform, true, 1 / 20⟩
      = (⟨VisualizerMode.waveform, VisualizerMode.waveform, true, 1 / 10⟩,
          [(VisualizerMode.waveform, 19 / 20), (VisualizerMode.waveform, 1 / 20)]) := by
    unfold renderTick
    rw [if_pos ⟨rfl, by norm_num⟩]
    dsimp only
    rw [if_neg (by norm_num), if_pos (by norm_num), if_pos (by norm_num)]
    norm_num
  rw [ht1]
  refine ⟨rfl, by simp, rfl, ?_⟩
  rw [ht2]

/-! ## Bars mode globalAlpha claims -/

lemma barLoopAlphas_succ (n : ℕ) (a : ℚ) :
    barLoopAlphas (n + 1) a
      = (a :: (1 / 5 : ℚ) :: (List.replicate n [(1 : ℚ), 1 / 5]).flatten, 1) := by
  induction n generalizing a with
  | zero => rfl
  | succ n ih =>
      rw [show barLoopAlphas (n + 2) a
          = (a :: (1 / 5 : ℚ) :: (barLoopAlphas (n + 1) 1).1,
              (barLoopAlphas (n + 1) 1).2) from rfl]
      rw [ih 1]
      simp [List.replicate_succ]

/-- C10: when renderMode dispatches to the bars drawer with an
opacity below 1 and at least one bar, the first bar is filled at the
requested opacity but the alpha reset at the end of each loop iteration
makes every later bar fill use alpha 1 (full opacity, not the
transition opacity), every reflection use the constant 0.2, and leaves
globalAlpha at 1 when the call returns. -/
theorem C10_bar_alpha_reset (opacity : ℚ) (freqLen : ℕ)
    (hop : opacity < 1) (hlen : 1 ≤ freqLen) :
    renderModeBars opacity freqLen
      = (opacity :: (1 / 5 : ℚ)
          :: (List.replicate (barCountOf freqLen - 1) [(1 : ℚ), 1 / 5]).flatten, 1) := by
  obtain ⟨n, hn⟩ : ∃ n, barCountOf freqLen = n + 1 :=
    ⟨barCountOf freqLen - 1, by unfold barCountOf; omega⟩
  simp only [renderModeBars, drawBarSpectrum, if_pos hop, hn]
  rw [barLoopAlphas_succ]
  simp

/-- Witness for C10: opacity 1/2 with an 8-sample buffer (two bars). -/
theorem C10_bar_alpha_reset_witness :
    renderModeBars (1 / 2) 8
      = ((1 / 2 : ℚ) :: (1 / 5 : ℚ)
          :: (List.replicate (barCountOf 8 - 1) [(1 : ℚ), 1 / 5]).flatten, 1) :=
  C10_bar_alpha_reset (1 / 2) 8 (by norm_num) (by norm_num)

/-! ## Spectrogram claims -/

lemma getD_map_range (f : ℕ → ℕ) (n i : ℕ) (h : i < n) :
    ((List.range n).map f).getD i 0 = f i := by
  rw [List.getD_eq_getElem?_getD, List.getElem?_map, List.getElem?_range h]
  rfl

lemma shifted_getD (d : List ℕ) (w h : ℕ) (f : List ℕ) (x y c : ℕ)
    (hx : x + 1 < w) (hy : y < h) (hc : c < 4) :
    ((List.range (w * h * 4)).map (shiftedByte d w h f)).getD ((y * w + x) * 4 + c) 0
      = d.getD ((y * w + (x + 1)) * 4 + c) 0 := by
  have hw : 0 < w := by omega
  have hyx : y * w + x + 1 ≤ h * w := by
    calc y * w + x + 1 ≤ y * w + w := by omega
      _ = (y + 1) * w := by ring
      _ ≤ h * w := Nat.mul_le_mul_right w hy
  have hi : (y * w + x) * 4 + c < w * h * 4 := by
    calc (y * w + x) * 4 + c < (y * w + x + 1) * 4 := by omega
      _ ≤ (h * w) * 4 := Nat.mul_le_mul_right 4 hyx
      _ = w * h * 4 := by ring
  rw [getD_map_range _ _ _ hi]
  have hdiv : ((y * w + x) * 4 + c) / 4 = y * w + x := by omega
  have hmod : ((y * w + x) * 4 + c) % 4 = c := by omega
  have hmw : (y * w + x) % w = x := by
    rw [Nat.mul_comm y w, Nat.mul_add_mod, Nat.mod_eq_of_lt (by omega)]
  have hdw : (y * w + x) / w = y := by
    rw [Nat.mul_comm y w, Nat.mul_add_div hw, Nat.div_eq_of_lt (by omega)]
    omega
  simp only [shiftedByte, hdiv, hmod, hmw, hdw]
  rw [if_pos hx]

/-- C8: the very first drawSpectrogram call (Uninitialized state)
allocates a width x height RGBA buffer filled opaque black and appends
no column, and once initialized each advance shifts the image exactly
one column left: after two further calls with frames F1 then F2 (both
shorter than the canvas height), the pixel column at width-2 equals the
column that sat at width-1 after the F1 call. -/
theorem C8_spectrogram_shift :
    (∀ (w h : ℕ) (f : List ℕ),
      drawSpectrogram none f w h = some ⟨w, h, initBlack w h⟩) ∧
    (∀ (w h : ℕ) (f0 f1 f2 : List ℕ), 2 ≤ w → f1.length < h → f2.length < h →
      columnOfOpt
          (drawSpectrogram (drawSpectrogram (drawSpectrogram none f0 w h) f1 w h) f2 w h)
          (w - 2)
        = columnOfOpt (drawSpectrogram (drawSpectrogram none f0 w h) f1 w h) (w - 1)) := by
  constructor
  · intro w h f
    rfl
  · intro w h f0 f1 f2 hw hf1 hf2
    simp only [drawSpectrogram, columnOfOpt, columnOf]
    apply List.map_congr_left
    intro k hk
    rw [List.mem_range] at hk
    have hy : k / 4 < h := by omega
    have hc : k % 4 < 4 := by omega
    have hx : (w - 2) + 1 < w := by omega
    have hcol := shifted_getD
      ((List.range (w * h * 4)).map (shiftedByte (initBlack w h) w h f1))
      w h f2 (w - 2) (k / 4) (k % 4) hx hy hc
    rw [hcol]
    have h21 : w - 2 + 1 = w - 1 := by omega
    rw [h21]

/-- Witness for C8: a 3 x 2 canvas with one-sample frames. -/
theorem C8_spectrogram_shift_witness :
    columnOfOpt
        (drawSpectrogram (drawSpectrogram (drawSpectrogram none [] 3 2) [1] 3 2) [2] 3 2)
        (3 - 2)
      = columnOfOpt (drawSpectrogram (drawSpectrogram none [] 3 2) [1] 3 2) (3 - 1) :=
  C8_spectrogram_shift.2 3 2 [] [1] [2] (by norm_num) (by norm_num) (by norm_num)

/-- C2 as the code behaves: a resize leaves spectrogramDataRef holding
the stale buffer (the state is not Uninitialized), the next advance
takes the shift branch applied to that stale buffer with the new canvas
dimensions, and in doing so reads the stale 64-byte (4 x 4) buffer at
index 124, an index computed from the new 6 x 6 dimensions that lies
beyond the old buffer. -/
theorem C2_resize_keeps_stale_buffer :
    resizeEffect (drawSpectrogram none (List.replicate 8 0) 4 4)
        = some ⟨4, 4, initBlack 4 4⟩ ∧
    resizeEffect (drawSpectrogram none (List.replicate 8 0) 4 4) ≠ none ∧
    drawSpectrogram (resizeEffect (drawSpectrogram none (List.replicate 8 0) 4 4))
        (List.replicate 8 0) 6 6
      = some ⟨6, 6, (List.range (6 * 6 * 4)).map
          (shiftedByte (initBlack 4 4) 6 6 (List.replicate 8 0))⟩ ∧
    shiftedByte (initBlack 4 4) 6 6 (List.replicate 8 0) 120
        = (initBlack 4 4).getD 124 0 ∧
    (initBlack 4 4).length < 124 := by
  refine ⟨rfl, by simp [resizeEffect, drawSpectrogram], rfl, by rfl, ?_⟩
  norm_num [initBlack]
